import Mathlib

/-!
Verification of `fetch_steam_applist.py`: a shallow embedding in Lean 4 of the
JSON-to-CSV utility, together with theorems settling the specified properties
of its extractor (`extract_apps`), writer (`write_csv`), retry loop
(`fetch_applist`) and orchestration (`main`).

Python values flowing through the program are modelled by the inductive `JVal`
(JSON-shaped data: None, bool, int, str, list, dict).  Python operations that
can raise are modelled in `Except String`; an `Except.error` value marks an
uncaught Python exception.  Machine-level details that no claim touches are
simplified where noted in the doc comments (e.g. repr escaping inside nested
containers); every simplification is stated at its definition.
-/

namespace SteamAppList

/-- JSON-shaped Python values: None, bool, int, str, list, dict.
JSON numbers are modelled as integers (the appid payloads the script handles
are integral); dicts are association lists assumed duplicate-free, as produced
by `json.loads`. -/
inductive JVal where
  | null : JVal
  | bool : Bool → JVal
  | int : Int → JVal
  | str : String → JVal
  | arr : List JVal → JVal
  | obj : List (String × JVal) → JVal

/-- Python truthiness: `bool(v)` for each modelled value shape. -/
def truthy : JVal → Bool
  | .null => false
  | .bool b => b
  | .int n => n != 0
  | .str s => s != ""
  | .arr xs => !xs.isEmpty
  | .obj kvs => !kvs.isEmpty

/-- Python `a or b`: returns `a` when truthy, otherwise `b`. -/
def pyOr (a b : JVal) : JVal := if truthy a then a else b

/-- Lookup in a dict, first matching key (dicts are duplicate-free). -/
def dictGet : List (String × JVal) → String → JVal
  | [], _ => .null
  | (k, v) :: kvs, key => if k = key then v else dictGet kvs key

/-- Python `x.get(key)`: succeeds with the value (or None) on a dict, raises
`AttributeError` on every other value. -/
def pyGet : JVal → String → Except String JVal
  | .obj kvs, key => .ok (dictGet kvs key)
  | _, _ => .error ("AttributeError: object has no attribute get")

/-- Python `for e in x`: lists yield their elements, strings their characters
(as one-character strings), dicts their keys; other values raise `TypeError`. -/
def pyIter : JVal → Except String (List JVal)
  | .arr xs => .ok xs
  | .str s => .ok (s.toList.map (fun c => .str c.toString))
  | .obj kvs => .ok (kvs.map (fun kv => .str kv.1))
  | _ => .error ("TypeError: object is not iterable")

/-- Python whitespace characters stripped by `str.strip()` and ignored by
`int()` around a numeral (ASCII subset; exotic Unicode spaces not modelled). -/
def pyIsSpace (c : Char) : Bool :=
  c == ' ' || c == '\t' || c == '\n' || c == '\r' || c == '\x0b' || c == '\x0c'

/-- Python `str.strip()` on a character list: drop whitespace at both ends. -/
def pyStripChars (cs : List Char) : List Char :=
  ((cs.dropWhile pyIsSpace).reverse.dropWhile pyIsSpace).reverse

/-- Python `str.strip()`. -/
def pyStrip (s : String) : String := String.mk (pyStripChars s.toList)

/-- Value of a digit string under left fold (most significant digit first). -/
def digitsVal (cs : List Char) : Nat :=
  cs.foldl (fun acc c => acc * 10 + (c.toNat - 48)) 0

/-- Parse the stripped body of a decimal numeral: optional sign, then a
nonempty run of digits.  Returns none when Python `int()` would raise
`ValueError`.  (Underscore digit grouping accepted by Python is not modelled;
no claim exercises it.) -/
def parseIntChars : List Char → Option Int
  | [] => none
  | c :: cs =>
    if c = '+' then
      if cs ≠ [] ∧ cs.all Char.isDigit then some (digitsVal cs) else none
    else if c = '-' then
      if cs ≠ [] ∧ cs.all Char.isDigit then some (-(digitsVal cs : Int)) else none
    else
      if (c :: cs).all Char.isDigit then some (digitsVal (c :: cs)) else none

/-- Python `int(x)` on the modelled values: None/list/dict raise, bool maps to
0 or 1, int is itself, and a string is parsed as an optionally signed decimal
numeral surrounded by whitespace.  `none` models a raised exception. -/
def pyToInt : JVal → Option Int
  | .null => none
  | .bool b => some (if b then 1 else 0)
  | .int n => some n
  | .str s => parseIntChars (pyStripChars s.toList)
  | .arr _ => none
  | .obj _ => none

/-- Decimal digits of a natural number, most significant first, driven by
fuel (`n + 1` steps always suffice since each step divides by 10). -/
def natDigits : Nat → Nat → List Char
  | 0, _ => []
  | fuel + 1, n =>
    if n < 10 then [Nat.digitChar n]
    else natDigits fuel (n / 10) ++ [Nat.digitChar (n % 10)]

/-- Python `str(n)` for an int: decimal digits with a leading minus sign for
negative values. -/
def intReprChars : Int → List Char
  | .ofNat n => natDigits (n + 1) n
  | .negSucc m => '-' :: natDigits (m + 2) (m + 1)

/-- Python `str(n)` for an int, as a string. -/
def intRepr (n : Int) : String := String.mk (intReprChars n)

/-- A single-quote character (used by Python repr of strings). -/
def sq : String := (Char.ofNat 39).toString

mutual

/-- Python `repr(v)` for the modelled values.  Containers render their
elements recursively with `, ` separators; strings render between single
quotes.  (Python escaping of quotes/backslashes inside a repr-ed string is not
modelled; no claim exercises the repr of containers.) -/
def pyRepr : JVal → String
  | .null => "None"
  | .bool b => if b then "True" else "False"
  | .int n => intRepr n
  | .str s => sq ++ s ++ sq
  | .arr xs => "[" ++ pyReprSeq xs ++ "]"
  | .obj kvs => "\x7b" ++ pyReprKVs kvs ++ "\x7d"

/-- Comma-separated reprs of list elements. -/
def pyReprSeq : List JVal → String
  | [] => ""
  | [x] => pyRepr x
  | x :: y :: xs => pyRepr x ++ ", " ++ pyReprSeq (y :: xs)

/-- Comma-separated `key: value` reprs of dict items. -/
def pyReprKVs : List (String × JVal) → String
  | [] => ""
  | [(k, v)] => sq ++ k ++ sq ++ ": " ++ pyRepr v
  | (k, v) :: kv :: kvs => sq ++ k ++ sq ++ ": " ++ pyRepr v ++ ", " ++ pyReprKVs (kv :: kvs)

end

/-- Python `str(v)`: identical to `repr(v)` on every modelled shape except
strings, which convert to themselves. -/
def pyStr : JVal → String
  | .str s => s
  | v => pyRepr v

/-- Line 61 of the source: `e.get("appid") or e.get("AppId") or e.get("AppID")`
on an entry dict.  Python `or` takes the first truthy operand, so a falsy
value under an earlier key (e.g. `0`) falls through to the later keys. -/
def extractEntryId (kvs : List (String × JVal)) : JVal :=
  pyOr (dictGet kvs ("appid")) (pyOr (dictGet kvs ("AppId")) (dictGet kvs ("AppID")))

/-- Line 62 of the source: `e.get("name") or e.get("Name") or ""`. -/
def extractEntryName (kvs : List (String × JVal)) : JVal :=
  pyOr (dictGet kvs ("name")) (pyOr (dictGet kvs ("Name")) (.str ""))

/-- The pair the loop body yields for one entry dict, if any: `int(appid)`
must succeed, and the name becomes `str(name).strip()`.  `none` both for a
failed coercion (the `except: continue`) and for non-dict entries (where the
real loop raises before reaching the `try`; that distinction lives in
`extractFold`). -/
def entryPair : JVal → Option (Int × String)
  | .obj kvs =>
    (pyToInt (extractEntryId kvs)).map
      (fun i => (i, pyStrip (pyStr (extractEntryName kvs))))
  | _ => none

/-- The `for e in apps` loop of `extract_apps` (lines 59-67), fused with the
`list(...)` consumption in `main` (line 100): each entry dict appends its pair
to the accumulator when `int(appid)` succeeds and is skipped otherwise; the
`e.get` calls sit outside the `try`, so a non-dict entry raises
`AttributeError` and aborts the whole traversal. -/
def extractFold : List JVal → List (Int × String) → Except String (List (Int × String))
  | [], acc => .ok acc
  | e :: es, acc =>
    match e with
    | .obj kvs =>
      match pyToInt (extractEntryId kvs) with
      | some i => extractFold es (acc ++ [(i, pyStrip (pyStr (extractEntryName kvs)))])
      | none => extractFold es acc
    | _ => .error ("AttributeError: object has no attribute get")

/-- Lines 57-58 of the source: container resolution
`applist = json_data.get("applist") or {}` and
`apps = applist.get("apps") or []`, then the list of entries `for e in apps`
ranges over. -/
def appsEntries (json_data : JVal) : Except String (List JVal) :=
  match pyGet json_data ("applist") with
  | .error e => .error e
  | .ok applistRaw =>
    match pyGet (pyOr applistRaw (.obj [])) ("apps") with
    | .error e => .error e
    | .ok appsRaw => pyIter (pyOr appsRaw (.arr []))

/-- `extract_apps` (lines 56-67), consumed eagerly as `list(extract_apps(d))`
does in `main` (line 100): resolve the entry container, then fold the yield
loop over it.  An `Except.error` marks an exception the generator raises when
consumed. -/
def extract_apps (json_data : JVal) : Except String (List (Int × String)) :=
  match appsEntries json_data with
  | .error e => .error e
  | .ok entries => extractFold entries []

/-- A well-formed response wrapping a list of raw entries, as the endpoint
returns: the shape the spec example uses. -/
def mkResponse (entries : List JVal) : JVal :=
  .obj [(("applist"), .obj [(("apps"), .arr entries)])]

example :
    extract_apps (mkResponse
      [.obj [(("appid"), .int 10), (("name"), .str ("Half-Life"))],
       .obj [(("appid"), .str ("bad")), (("name"), .str ("X"))],
       .obj [(("AppID"), .int 20), (("Name"), .str (" Portal "))]]) =
    .ok [(10, "Half-Life"), (20, "Portal")] := rfl

example : extract_apps (mkResponse [.obj [(("appid"), .int 0)]]) = .ok [] := rfl

example : extract_apps (.obj [(("applist"), .int 1)]) =
    .error ("AttributeError: object has no attribute get") := rfl

example : extract_apps (.obj []) = .ok [] := rfl

/-- Characters that force quoting under `csv.writer` defaults
(QUOTE_MINIMAL): the delimiter, the quote character, and the characters of
the line terminator `\r\n`. -/
def csvSpecial (c : Char) : Bool :=
  c == ',' || c == '"' || c == '\r' || c == '\n'

/-- Double every quote character, as the default CSV dialect escapes quotes. -/
def escapeQuotes : List Char → List Char
  | [] => []
  | c :: cs => if c = '"' then '"' :: '"' :: escapeQuotes cs else c :: escapeQuotes cs

/-- One field as `csv.writer` emits it: quoted with doubled inner quotes when
it holds a special character, verbatim otherwise. -/
def encodeField (s : List Char) : List Char :=
  if s.any csvSpecial then '"' :: (escapeQuotes s ++ ['"']) else s

/-- Fields of one row joined by the `,` delimiter. -/
def encodeFields : List (List Char) → List Char
  | [] => []
  | [f] => encodeField f
  | f :: g :: fs => encodeField f ++ ',' :: encodeFields (g :: fs)

/-- One `writerow` call: delimiter-joined fields plus the `\r\n` terminator
the default dialect writes (the file is opened with `newline=""`, so the
terminator reaches the file untranslated). -/
def encodeRow (fields : List (List Char)) : List Char :=
  encodeFields fields ++ ['\r', '\n']

/-- The data rows of `write_csv` (line 74-75): one row per pair, the id
rendered by `str()` and the name written as the string it is. -/
def csvBody : List (Int × String) → List Char
  | [] => []
  | p :: ps => encodeRow [intReprChars p.1, p.2.toList] ++ csvBody ps

/-- `write_csv` (lines 70-75) as the text it writes: the header row
`AppId,Name` followed by one row per pair. -/
def write_csv (apps : List (Int × String)) : String :=
  String.mk (encodeRow [("AppId").toList, ("Name").toList] ++ csvBody apps)

/-- Reader for a quoted CSV field, positioned after the opening quote:
consumes up to the closing quote, reading a doubled quote as one literal
quote character.  `none` on an unterminated quote. -/
def readQuoted : List Char → Option (List Char × List Char)
  | [] => none
  | c :: cs =>
    if c = '"' then
      match cs with
      | [] => some ([], [])
      | c2 :: cs2 =>
        if c2 = '"' then (readQuoted cs2).map (fun p => ('"' :: p.1, p.2))
        else some ([], c2 :: cs2)
    else (readQuoted cs).map (fun p => (c :: p.1, p.2))

/-- Reader for an unquoted CSV field: everything up to the next delimiter or
line break. -/
def readUnquoted : List Char → List Char × List Char
  | [] => ([], [])
  | c :: cs =>
    if c = ',' ∨ c = '\r' ∨ c = '\n' then ([], c :: cs)
    else
      let p := readUnquoted cs
      (c :: p.1, p.2)

/-- One CSV field: quoted when it opens with a quote, unquoted otherwise. -/
def readField : List Char → Option (List Char × List Char)
  | [] => some ([], [])
  | c :: cs => if c = '"' then readQuoted cs else some (readUnquoted (c :: cs))

/-- One CSV record: delimiter-separated fields ended by `\r\n`.  Fuel bounds
the number of fields; `none` on malformed input or exhausted fuel. -/
def readRecord : Nat → List Char → Option (List (List Char) × List Char)
  | 0, _ => none
  | fuel + 1, cs =>
    match readField cs with
    | none => none
    | some (f, rest) =>
      match rest with
      | [] => none
      | c :: r =>
        if c = ',' then
          match readRecord fuel r with
          | none => none
          | some (fs, r2) => some (f :: fs, r2)
        else if c = '\r' then
          match r with
          | [] => none
          | c2 :: r2 => if c2 = '\n' then some ([f], r2) else none
        else none

/-- All records of a CSV text.  Fuel bounds the number of records. -/
def readRows : Nat → List Char → Option (List (List (List Char)))
  | 0, cs => if cs = [] then some [] else none
  | fuel + 1, cs =>
    if cs = [] then some []
    else
      match readRecord (cs.length + 1) cs with
      | none => none
      | some (fs, rest) =>
        match readRows fuel rest with
        | none => none
        | some rows => some (fs :: rows)

/-- A standard CSV reader over the default dialect (comma delimiter, quote
escaping by doubling, `\r\n` records): the re-reading side of the round-trip
property. -/
def csvRead (s : String) : Option (List (List String)) :=
  (readRows (s.toList.length + 1) s.toList).map
    (fun rows => rows.map (fun r => r.map String.mk))

example : csvRead (write_csv []) = some [["AppId", "Name"]] := rfl

example : csvRead (write_csv [(10, "Half-Life"), (-3, "a,b\"c")]) =
    some [["AppId", "Name"], ["10", "Half-Life"], ["-3", "a,b\"c"]] := rfl

/-- The fixed endpoint URL (line 24 of the source). -/
def DEFAULT_URL : String := "https://api.steampowered.com/ISteamApps/GetAppList/v2/"

/-- The default API key baked into the script (line 23). -/
def DEFAULT_API_KEY : String := "1B27234A8D97A72C97E53BC43D646C1F"

/-- The outgoing HTTP GET request: URL, query parameters, headers. -/
structure HttpRequest where
  url : String
  params : List (String × String)
  headers : List (String × String)
deriving DecidableEq

/-- The request `fetch_applist` issues on every attempt (lines 33-43): the
fixed URL, no query parameters, and the two fixed headers.  The `api_key`
argument of `fetch_applist` is accepted but never reaches the request. -/
def fetchRequest : HttpRequest :=
  ⟨DEFAULT_URL, [],
   [(("User-Agent"), ("fetch_steam_applist/1.0")), (("Accept"), ("application/json"))]⟩

/-- How one run of the retry loop ends: a parsed body, the re-raised last
error, or the implicit `None` Python returns when `max_attempts = 0` makes
the `while` body never run. -/
inductive FetchOutcome (E J : Type) where
  | success : J → FetchOutcome E J
  | failure : E → FetchOutcome E J
  | noAttempts : FetchOutcome E J
deriving DecidableEq

/-- Observable trace of the retry loop: how many GET attempts ran, the sleeps
performed between them (in seconds), and the outcome. -/
structure FetchTrace (E J : Type) where
  attempts : Nat
  sleeps : List ℚ
  outcome : FetchOutcome E J
deriving DecidableEq

/-- The `while attempt < max_attempts` loop of `fetch_applist` (lines 39-53).
`net a` is the observed outcome of attempt number `a` (one GET plus
`raise_for_status` plus `.json()`, collapsed into one `Except`).  `rem` is the
number of loop iterations still permitted, `done` the attempts already made,
`sleeps` the sleeps already performed.  A failed attempt sleeps
`backoff * attempt` seconds and retries, unless it was the last permitted
attempt, in which case the error is re-raised. -/
def fetchGo {E J : Type} (net : Nat → Except E J) (backoff : ℚ) :
    Nat → Nat → List ℚ → FetchTrace E J
  | 0, done, sleeps => ⟨done, sleeps, .noAttempts⟩
  | rem + 1, done, sleeps =>
    match net (done + 1) with
    | .ok j => ⟨done + 1, sleeps, .success j⟩
    | .error e =>
      if rem = 0 then ⟨done + 1, sleeps, .failure e⟩
      else fetchGo net backoff rem (done + 1) (sleeps ++ [backoff * ((done + 1 : Nat) : ℚ)])

/-- `fetch_applist` (lines 27-53) as a trace over the network oracle `net`.
The float `backoff` is modelled as a rational (its only uses are `2.0 * n`);
the `timeout` argument configures the GET itself and is folded into `net`. -/
def fetch_applist {E J : Type} (net : Nat → Except E J) (max_attempts : Nat)
    (backoff : ℚ) : FetchTrace E J :=
  fetchGo net backoff max_attempts 0 []

/-- The diagnostic `fetch_applist` prints when a non-empty key is supplied
(lines 30-31). -/
def keyIgnoredNote : String :=
  "Note: GetAppList endpoint does not require an API key; the provided key will be ignored."

/-- One full call of `fetch_applist` including its observable side channel:
the optional key-ignored diagnostic, the request shape used for every
attempt, and the retry trace. -/
structure FetchRun (E J : Type) where
  notes : List String
  request : HttpRequest
  trace : FetchTrace E J

/-- `fetch_applist` with its diagnostics: the key influences only the note,
never the request or the trace. -/
def fetch_applist_run {E J : Type} (api_key : String) (net : Nat → Except E J)
    (max_attempts : Nat) (backoff : ℚ) : FetchRun E J :=
  ⟨if api_key = "" then [] else [keyIgnoredNote], fetchRequest,
   fetch_applist net max_attempts backoff⟩

/-- Exit of the process: a `sys.exit`-style return code from `main`, or an
uncaught exception (which aborts the interpreter with a traceback). -/
inductive MainOutcome where
  | exit : Nat → MainOutcome
  | crashed : String → MainOutcome
deriving DecidableEq

/-- Message of the exception `input()` raises when standard input is
unavailable. -/
def promptCrashMsg : String := "EOFError: EOF when reading a line"

/-- Message logged when saving the optional JSON dump fails (line 98). -/
def jsonFailMsg : String := "Failed to save JSON"

/-- Environment of one run of `main`: the CLI-style inputs and the outcomes
of the external effects it performs. `net` gives each GET attempt, the two
`WriteOk` flags tell whether the corresponding `open`+write succeeds, and
`stdinOk` tells whether `input()` can read a line. -/
structure Env where
  apiKey : String
  net : Nat → Except String JVal
  jsonFlag : Bool
  jsonWriteOk : Bool
  csvWriteOk : Bool
  stdinOk : Bool

/-- Lines 93-116 of `main`, after `fetch_applist` returned `data` without
raising: optionally dump JSON (failure only logged), extract (an exception
here is uncaught), report the count, write the CSV (failure prompts and
exits 3; a missing stdin makes the unguarded `input()` raise), print Done
and hold the console (this last `input()` is guarded by try/except). -/
def mainAfterFetch (log0 : List String) (data : JVal) (env : Env) :
    List String × MainOutcome :=
  let log1 := log0 ++ (if env.jsonFlag && !env.jsonWriteOk then [jsonFailMsg] else [])
  match extract_apps data with
  | .error msg => (log1, .crashed msg)
  | .ok apps =>
    let log2 := log1 ++ [("Fetched ") ++ toString apps.length ++ (" apps.")]
    if env.csvWriteOk then (log2 ++ [("Done.")], .exit 0)
    else
      (log2 ++ [("Failed to write CSV")],
       if env.stdinOk then .exit 3 else .crashed promptCrashMsg)

/-- `main` (lines 78-116): fetch with the default retry parameters
(3 attempts, backoff 2.0); on a fetch failure, prompt (the `input()` on line
90 is unguarded, so a missing stdin raises) and exit 2; otherwise continue
with the parsed data (`None` if the loop made no attempts).  Returns the
stderr log and the process outcome.  Per-attempt retry diagnostics are
tracked in `FetchTrace`, not repeated here. -/
def main (env : Env) : List String × MainOutcome :=
  let run := fetch_applist_run env.apiKey env.net 3 2
  let log0 := [("Fetching Steam app list...")] ++ run.notes
  match run.trace.outcome with
  | .failure e =>
    (log0 ++ [("Failed to fetch app list: ") ++ e],
     if env.stdinOk then .exit 2 else .crashed promptCrashMsg)
  | .success data => mainAfterFetch log0 data env
  | .noAttempts => mainAfterFetch log0 .null env

example :
    (main ⟨DEFAULT_API_KEY, fun _ => .ok (mkResponse []), false, true, true, true⟩).2 =
    .exit 0 := rfl

example :
    (main ⟨"", fun _ => .error ("timeout"), false, true, true, true⟩).2 = .exit 2 := rfl

example :
    (main ⟨"", fun _ => .error ("timeout"), false, true, true, false⟩).2 =
    .crashed promptCrashMsg := rfl

example :
    (main ⟨"", fun _ => .ok (mkResponse []), false, true, false, true⟩).2 = .exit 3 := rfl

/-- Whether a value is a dict (the only shape `e.get` works on). -/
def isObjB : JVal → Bool
  | .obj _ => true
  | _ => false

theorem isObjB_iff (e : JVal) : isObjB e = true ↔ ∃ kvs, e = .obj kvs := by
  cases e <;> simp [isObjB]

theorem extractFold_objs (es : List JVal) (acc : List (Int × String))
    (h : ∀ e ∈ es, isObjB e = true) :
    extractFold es acc = .ok (acc ++ es.filterMap entryPair) := by
  induction es generalizing acc with
  | nil => simp [extractFold]
  | cons e es ih =>
    obtain ⟨kvs, rfl⟩ := (isObjB_iff e).1 (h e (by simp))
    have hrest : ∀ x ∈ es, isObjB x = true := fun x hx => h x (by simp [hx])
    cases hi : pyToInt (extractEntryId kvs) with
    | some i =>
      simp only [extractFold, hi, ih _ hrest]
      simp [List.filterMap_cons, entryPair, hi]
    | none =>
      simp only [extractFold, hi, ih _ hrest]
      simp [List.filterMap_cons, entryPair, hi]

theorem appsEntries_mkResponse (entries : List JVal) :
    appsEntries (mkResponse entries) = .ok entries := by
  cases entries <;> rfl

/-- C10: extract_apps preserves input order: whenever the entry container
resolves to the raw entry list `es` and every raw entry is a dict, the
extracted pairs are exactly the in-order `filterMap` of the per-entry
extraction over `es`, i.e. an in-order selection with each pair derived from
the raw entry at the corresponding position. -/
theorem extract_apps_preserves_order (j : JVal) (es : List JVal)
    (h1 : appsEntries j = .ok es) (h2 : ∀ e ∈ es, isObjB e = true) :
    extract_apps j = .ok (es.filterMap entryPair) := by
  simp only [extract_apps, h1]
  rw [extractFold_objs es [] h2]
  simp

/-- Witness for C10 at the concrete response of the spec example: the two
valid entries come out in input order around the skipped middle entry. -/
theorem extract_apps_preserves_order_witness :
    extract_apps (mkResponse
      [.obj [(("appid"), .int 10), (("name"), .str ("Half-Life"))],
       .obj [(("appid"), .str ("bad")), (("name"), .str ("X"))],
       .obj [(("AppID"), .int 20), (("Name"), .str (" Portal "))]]) =
    .ok [(10, "Half-Life"), (20, "Portal")] := by
  have h := extract_apps_preserves_order (mkResponse
      [.obj [(("appid"), .int 10), (("name"), .str ("Half-Life"))],
       .obj [(("appid"), .str ("bad")), (("name"), .str ("X"))],
       .obj [(("AppID"), .int 20), (("Name"), .str (" Portal "))]])
      [.obj [(("appid"), .int 10), (("name"), .str ("Half-Life"))],
       .obj [(("appid"), .str ("bad")), (("name"), .str ("X"))],
       .obj [(("AppID"), .int 20), (("Name"), .str (" Portal "))]]
      (appsEntries_mkResponse _) (by decide)
  rw [h]
  rfl

/-- C1 counterexample: the entry `{"appid": 0}` carries the integer-coercible
identifier `0` under the accepted key `appid` (and no name), yet
`extract_apps` produces no pair for it: `0` is falsy, so the `or` chain on
line 61 discards it, leaving `None`, and `int(None)` raises, so the entry is
skipped.  The claim demands exactly one pair `(0, "")`. -/
theorem extract_apps_zero_id_dropped :
    extract_apps (mkResponse [.obj [(("appid"), .int 0)]]) = .ok [] ∧
    pyToInt (.int 0) = some 0 := ⟨rfl, rfl⟩

/-- C1 (amended): for a raw entry dict whose RESOLVED identifier — the first
truthy value among the keys appid, AppId, AppID in priority order; falsy
values such as 0 fall through — coerces to an integer `i`, `extract_apps`
produces exactly one pair for that entry, `(i, str(name).strip())` with the
name resolved as the first truthy value among name, Name, defaulting to the
empty string. -/
theorem extract_apps_valid_entry (es1 es2 : List JVal)
    (kvs : List (String × JVal)) (i : Int)
    (h1 : ∀ e ∈ es1, isObjB e = true) (h2 : ∀ e ∈ es2, isObjB e = true)
    (hid : pyToInt (extractEntryId kvs) = some i) :
    extract_apps (mkResponse (es1 ++ .obj kvs :: es2)) =
      .ok (es1.filterMap entryPair ++
        (i, pyStrip (pyStr (extractEntryName kvs))) :: es2.filterMap entryPair) := by
  have hall : ∀ e ∈ es1 ++ JVal.obj kvs :: es2, isObjB e = true := by
    intro e he
    rcases List.mem_append.1 he with h | h
    · exact h1 e h
    · rcases List.mem_cons.1 h with rfl | h
      · rfl
      · exact h2 e h
  simp only [extract_apps, appsEntries_mkResponse]
  rw [extractFold_objs _ [] hall]
  simp [List.filterMap_append, List.filterMap_cons, entryPair, hid]

/-- Witness for C1 at the spec example entry `{"AppID": 20, "Name": " Portal "}`
between a valid and a skipped entry: exactly one pair `(20, "Portal")` with
the name trimmed. -/
theorem extract_apps_valid_entry_witness :
    extract_apps (mkResponse
      [.obj [(("appid"), .int 10)],
       .obj [(("AppID"), .int 20), (("Name"), .str (" Portal "))],
       .obj [(("appid"), .str ("bad"))]]) =
    .ok [(10, ""), (20, "Portal")] := by
  have h := extract_apps_valid_entry
      [.obj [(("appid"), .int 10)]] [.obj [(("appid"), .str ("bad"))]]
      [(("AppID"), .int 20), (("Name"), .str (" Portal "))] 20
      (by decide) (by decide) (by rfl)
  exact h

/-- C2 counterexample: in `{"applist": 1}` the `applist` field is present but
not a mapping (and truthy), so `applist.get("apps")` on line 58 raises
`AttributeError` when the generator is consumed, instead of yielding an empty
collection as the claim states. -/
theorem extract_apps_bad_container_raises :
    extract_apps (.obj [(("applist"), .int 1)]) =
    .error ("AttributeError: object has no attribute get") := rfl

/-- C2 (amended): a missing, null or otherwise FALSY entry container yields an
empty collection without raising: if the `applist` field of the response is
falsy (absent, None, false, 0, empty string, empty list or empty dict), or it
is a dict whose `apps` field is falsy, `extract_apps` returns the empty list
of pairs.  (A truthy non-mapping `applist`, or a truthy non-iterable `apps`,
raises instead: see the counterexample.) -/
theorem extract_apps_falsy_container_empty (kvs kvs2 : List (String × JVal)) :
    (truthy (dictGet kvs ("applist")) = false → extract_apps (.obj kvs) = .ok []) ∧
    (dictGet kvs ("applist") = .obj kvs2 → truthy (dictGet kvs2 ("apps")) = false →
      extract_apps (.obj kvs) = .ok []) := by
  constructor
  · intro h
    have e1 : pyOr (dictGet kvs ("applist")) (.obj []) = .obj [] := by
      simp [pyOr, h]
    simp only [extract_apps, appsEntries, pyGet, e1]
    rfl
  · intro h1 h2
    cases kvs2 with
    | nil =>
      have e1 : pyOr (dictGet kvs ("applist")) (.obj []) = .obj [] := by
        rw [h1]; rfl
      simp only [extract_apps, appsEntries, pyGet, e1]
      rfl
    | cons kv rest =>
      have e1 : pyOr (dictGet kvs ("applist")) (.obj []) = .obj (kv :: rest) := by
        rw [h1]; rfl
      have e2 : pyOr (dictGet (kv :: rest) ("apps")) (.arr []) = .arr [] := by
        simp [pyOr, h2]
      simp only [extract_apps, appsEntries, pyGet, e1, e2]
      rfl

/-- Witness for C2 at two concrete responses: `{}` (container absent) and
`{"applist": {"apps": null}}` (inner collection null) both extract to the
empty list. -/
theorem extract_apps_falsy_container_empty_witness :
    extract_apps (.obj []) = .ok [] ∧
    extract_apps (.obj [(("applist"), .obj [(("apps"), .null)])]) = .ok [] := by
  refine ⟨(extract_apps_falsy_container_empty [] []).1 (by rfl), ?_⟩
  exact (extract_apps_falsy_container_empty
      [(("applist"), .obj [(("apps"), .null)])] [(("apps"), .null)]).2 rfl rfl

/-- C3 counterexample: the entry `5` in the entry collection is not a mapping;
`e.get("appid")` on line 61 sits outside the `try`, so consuming the
generator raises `AttributeError` instead of skipping the entry silently as
the claim states. -/
theorem extract_apps_nondict_entry_raises :
    extract_apps (mkResponse [.int 5]) =
    .error ("AttributeError: object has no attribute get") := rfl

/-- C3 (amended): a raw entry that is a mapping but malformed — missing every
identifier key variant, or with an identifier `int()` cannot coerce — yields
no pair and is skipped silently; when every raw entry is a mapping the
extraction succeeds and produces at most as many pairs as there are raw
entries.  (A raw entry that is not a mapping instead makes the extraction
raise: see the counterexample.) -/
theorem extract_apps_skips_malformed (entries : List JVal)
    (h : ∀ e ∈ entries, isObjB e = true) :
    extract_apps (mkResponse entries) = .ok (entries.filterMap entryPair) ∧
    (entries.filterMap entryPair).length ≤ entries.length ∧
    (∀ kvs, .obj kvs ∈ entries → pyToInt (extractEntryId kvs) = none →
      entryPair (.obj kvs) = none) := by
  refine ⟨?_, List.length_filterMap_le _ _, ?_⟩
  · simp only [extract_apps, appsEntries_mkResponse]
    rw [extractFold_objs _ [] h]
    simp
  · intro kvs _ hnone
    simp [entryPair, hnone]

/-- Witness for C3 at the spec example: three mapping entries, the middle one
with the uncoercible identifier `"bad"`, extract to two pairs (2 ≤ 3). -/
theorem extract_apps_skips_malformed_witness :
    extract_apps (mkResponse
      [.obj [(("appid"), .int 10), (("name"), .str ("Half-Life"))],
       .obj [(("appid"), .str ("bad")), (("name"), .str ("X"))],
       .obj [(("AppID"), .int 20), (("Name"), .str (" Portal "))]]) =
      .ok [(10, "Half-Life"), (20, "Portal")] ∧ (2 : Nat) ≤ 3 := by
  have h := extract_apps_skips_malformed
      [.obj [(("appid"), .int 10), (("name"), .str ("Half-Life"))],
       .obj [(("appid"), .str ("bad")), (("name"), .str ("X"))],
       .obj [(("AppID"), .int 20), (("Name"), .str (" Portal "))]]
      (by decide)
  refine ⟨?_, by omega⟩
  rw [h.1]
  rfl

theorem fetchGo_succ {E J : Type} (net : Nat → Except E J) (b : ℚ)
    (rem done : Nat) (sleeps : List ℚ) :
    fetchGo net b (rem + 1) done sleeps =
      match net (done + 1) with
      | .ok j => ⟨done + 1, sleeps, .success j⟩
      | .error e =>
        if rem = 0 then ⟨done + 1, sleeps, .failure e⟩
        else fetchGo net b rem (done + 1) (sleeps ++ [b * ((done + 1 : Nat) : ℚ)]) := rfl

theorem fetchGo_succ_ok {E J : Type} {net : Nat → Except E J} {b : ℚ}
    {rem done : Nat} {sleeps : List ℚ} {j : J} (hn : net (done + 1) = .ok j) :
    fetchGo net b (rem + 1) done sleeps = ⟨done + 1, sleeps, .success j⟩ := by
  rw [fetchGo_succ, hn]

theorem fetchGo_succ_err_last {E J : Type} {net : Nat → Except E J} {b : ℚ}
    {rem done : Nat} {sleeps : List ℚ} {e : E} (hn : net (done + 1) = .error e)
    (hr : rem = 0) :
    fetchGo net b (rem + 1) done sleeps = ⟨done + 1, sleeps, .failure e⟩ := by
  subst hr
  rw [fetchGo_succ, hn]
  rfl

theorem fetchGo_succ_err_cont {E J : Type} {net : Nat → Except E J} {b : ℚ}
    {rem done : Nat} {sleeps : List ℚ} {e : E} (hn : net (done + 1) = .error e)
    (hr : rem ≠ 0) :
    fetchGo net b (rem + 1) done sleeps =
      fetchGo net b rem (done + 1) (sleeps ++ [b * ((done + 1 : Nat) : ℚ)]) := by
  rw [fetchGo_succ, hn]
  exact if_neg hr

theorem fetchGo_attempts_le {E J : Type} (net : Nat → Except E J) (b : ℚ) :
    ∀ rem done sleeps, (fetchGo net b rem done sleeps).attempts ≤ done + rem := by
  intro rem
  induction rem with
  | zero => intro done sleeps; simp [fetchGo]
  | succ r ih =>
    intro done sleeps
    cases hn : net (done + 1) with
    | ok j =>
      rw [fetchGo_succ_ok hn]
      show done + 1 ≤ done + (r + 1)
      omega
    | error e =>
      by_cases hr : r = 0
      · rw [fetchGo_succ_err_last hn hr]
        show done + 1 ≤ done + (r + 1)
        omega
      · rw [fetchGo_succ_err_cont hn hr]
        have := ih (done + 1) (sleeps ++ [b * ((done + 1 : Nat) : ℚ)])
        omega

theorem range'_cons (s n : Nat) : List.range' s (n + 1) = s :: List.range' (s + 1) n := rfl

theorem fetchGo_all_fail {E J : Type} (net : Nat → Except E J) (b : ℚ) (errF : Nat → E) :
    ∀ rem done sleeps, 0 < rem →
    (∀ k, done < k → k ≤ done + rem → net k = .error (errF k)) →
    fetchGo net b rem done sleeps =
      ⟨done + rem,
       sleeps ++ (List.range' (done + 1) (rem - 1)).map (fun n : Nat => b * (n : ℚ)),
       .failure (errF (done + rem))⟩ := by
  intro rem
  induction rem with
  | zero => omega
  | succ r ih =>
    intro done sleeps _ h
    have hn : net (done + 1) = .error (errF (done + 1)) := h _ (by omega) (by omega)
    cases r with
    | zero =>
      rw [fetchGo_succ_err_last hn rfl]
      simp
    | succ r2 =>
      have ihh := ih (done + 1) (sleeps ++ [b * ((done + 1 : Nat) : ℚ)]) (by omega)
        (fun k hk1 hk2 => h k (by omega) (by omega))
      rw [fetchGo_succ_err_cont hn (by omega), ihh]
      have e1 : done + 1 + (r2 + 1) = done + (r2 + 1 + 1) := by omega
      have e2 : List.range' (done + 1) (r2 + 1 + 1 - 1) =
          (done + 1) :: List.range' (done + 1 + 1) (r2 + 1 - 1) := by
        have e3 : r2 + 1 + 1 - 1 = (r2 + 1 - 1) + 1 := by omega
        rw [e3, range'_cons]
      rw [e1, e2]
      simp

theorem fetchGo_first_success {E J : Type} (net : Nat → Except E J) (b : ℚ) (j : J) :
    ∀ t rem done sleeps, 0 < t → t ≤ rem →
    (∀ m, done < m → m < done + t → ∃ e, net m = .error e) →
    net (done + t) = .ok j →
    fetchGo net b rem done sleeps =
      ⟨done + t,
       sleeps ++ (List.range' (done + 1) (t - 1)).map (fun n : Nat => b * (n : ℚ)),
       .success j⟩ := by
  intro t
  induction t with
  | zero => omega
  | succ u ih =>
    intro rem done sleeps _ htrem hfail hok
    obtain ⟨r, rfl⟩ : ∃ r, rem = r + 1 := ⟨rem - 1, by omega⟩
    cases u with
    | zero =>
      have hnet : net (done + 1) = .ok j := hok
      rw [fetchGo_succ_ok hnet]
      simp
    | succ u2 =>
      obtain ⟨e, he⟩ := hfail (done + 1) (by omega) (by omega)
      have ihh := ih r (done + 1) (sleeps ++ [b * ((done + 1 : Nat) : ℚ)])
        (by omega) (by omega)
        (fun m hm1 hm2 => hfail m (by omega) (by omega))
        (by have h9 : done + 1 + (u2 + 1) = done + (u2 + 1 + 1) := by omega
            rw [h9]; exact hok)
      rw [fetchGo_succ_err_cont he (by omega), ihh]
      have e1 : done + 1 + (u2 + 1) = done + (u2 + 1 + 1) := by omega
      have e2 : List.range' (done + 1) (u2 + 1 + 1 - 1) =
          (done + 1) :: List.range' (done + 1 + 1) (u2 + 1 - 1) := by
        have e3 : u2 + 1 + 1 - 1 = (u2 + 1 - 1) + 1 := by omega
        rw [e3, range'_cons]
      rw [e1, e2]
      simp

theorem fetchGo_sleeps_shape {E J : Type} (net : Nat → Except E J) (b : ℚ) :
    ∀ rem done sleeps, ∃ m,
      (fetchGo net b rem done sleeps).sleeps =
        sleeps ++ (List.range' (done + 1) m).map (fun n : Nat => b * (n : ℚ)) := by
  intro rem
  induction rem with
  | zero => intro done sleeps; exact ⟨0, by simp [fetchGo]⟩
  | succ r ih =>
    intro done sleeps
    cases hn : net (done + 1) with
    | ok j =>
      rw [fetchGo_succ_ok hn]
      exact ⟨0, by simp⟩
    | error e =>
      by_cases hr : r = 0
      · rw [fetchGo_succ_err_last hn hr]
        exact ⟨0, by simp⟩
      · rw [fetchGo_succ_err_cont hn hr]
        obtain ⟨m, hm⟩ := ih (done + 1) (sleeps ++ [b * ((done + 1 : Nat) : ℚ)])
        refine ⟨m + 1, ?_⟩
        rw [hm, range'_cons]
        simp

theorem chain_lt_scaled_range (b : ℚ) (hb : 0 < b) :
    ∀ n s, List.Chain' (· < ·) ((List.range' s n).map (fun m : Nat => b * (m : ℚ))) := by
  intro n
  induction n with
  | zero => intro s; simp
  | succ u ih =>
    intro s
    rw [range'_cons]
    cases u with
    | zero => simp
    | succ u2 =>
      rw [range'_cons]
      refine List.Chain'.cons ?_ (by have := ih (s + 1); rwa [range'_cons] at this)
      have hs : (s : ℚ) < ((s + 1 : Nat) : ℚ) := by push_cast; linarith
      exact mul_lt_mul_of_pos_left hs hb

/-- C5: the retry policy of the fetcher: (1) it performs at most
`max_attempts` GET attempts; (2) with a positive backoff the sleeps it
performs are strictly increasing; (3) if attempts 1..k-1 fail and attempt k
(within the limit) succeeds, it returns that parsed body immediately after
exactly k attempts, having slept `backoff * n` seconds after each failed
attempt n; (4) if every attempt up to the limit fails, it surfaces the last
error after exactly `max_attempts` attempts, no more. -/
theorem fetch_applist_retry_policy {E J : Type} (net : Nat → Except E J)
    (maxA : Nat) (b : ℚ) (errF : Nat → E) (j : J) (k : Nat) :
    (fetch_applist net maxA b).attempts ≤ maxA
    ∧ (0 < b → List.Chain' (· < ·) (fetch_applist net maxA b).sleeps)
    ∧ (0 < k → k ≤ maxA → (∀ m, 0 < m → m < k → ∃ e, net m = .error e) →
        net k = .ok j →
        fetch_applist net maxA b =
          ⟨k, (List.range' 1 (k - 1)).map (fun n : Nat => b * (n : ℚ)), .success j⟩)
    ∧ (0 < maxA → (∀ m, 0 < m → m ≤ maxA → net m = .error (errF m)) →
        fetch_applist net maxA b =
          ⟨maxA, (List.range' 1 (maxA - 1)).map (fun n : Nat => b * (n : ℚ)),
           .failure (errF maxA)⟩) := by
  refine ⟨?_, ?_, ?_, ?_⟩
  · have := fetchGo_attempts_le net b maxA 0 []
    simpa [fetch_applist] using this
  · intro hb
    obtain ⟨m, hm⟩ := fetchGo_sleeps_shape net b maxA 0 []
    simp only [fetch_applist] at *
    rw [hm]
    simpa using chain_lt_scaled_range b hb m 1
  · intro hk1 hk2 hfail hok
    have := fetchGo_first_success net b j k maxA 0 []
      hk1 hk2 (fun m hm1 hm2 => hfail m hm1 (by omega)) (by simpa using hok)
    simpa [fetch_applist] using this
  · intro hmax hfail
    have := fetchGo_all_fail net b errF maxA 0 [] hmax
      (fun m hm1 hm2 => hfail m hm1 (by omega))
    simpa [fetch_applist] using this

/-- Witness for C5 with the default parameters (3 attempts, backoff 2.0):
failures on attempts 1 and 2 and success on attempt 3 give the parsed body
after exactly 3 attempts with the two increasing sleeps 2 s and 4 s; failure
on all attempts surfaces the last error after exactly 3 attempts. -/
theorem fetch_applist_retry_policy_witness :
    fetch_applist (fun a => if a = 3 then (.ok 7 : Except String Nat)
      else .error ("boom")) 3 2 = ⟨3, [2, 4], .success 7⟩
    ∧ fetch_applist (fun _ => (.error ("boom") : Except String Nat)) 3 2 =
        ⟨3, [2, 4], .failure ("boom")⟩
    ∧ (fetch_applist (fun _ => (.error ("boom") : Except String Nat)) 3 2).attempts ≤ 3
    ∧ List.Chain' (· < ·)
        (fetch_applist (fun _ => (.error ("boom") : Except String Nat)) 3 2).sleeps := by
  have hrange : List.range' 1 (3 - 1) = [1, 2] := rfl
  have h1 := (fetch_applist_retry_policy
    (fun a => if a = 3 then (.ok 7 : Except String Nat) else .error ("boom"))
    3 2 (fun _ => ("boom")) 7 3).2.2.1 (by omega) (by omega)
    (by intro m hm1 hm2
        refine ⟨("boom"), ?_⟩
        interval_cases m <;> rfl)
    (by rfl)
  have h2 := (fetch_applist_retry_policy
    (fun _ => (.error ("boom") : Except String Nat)) 3 2 (fun _ => ("boom")) 7 3).2.2.2
    (by omega) (fun m _ _ => rfl)
  have h3 := (fetch_applist_retry_policy
    (fun _ => (.error ("boom") : Except String Nat)) 3 2 (fun _ => ("boom")) 7 3).1
  have h4 := (fetch_applist_retry_policy
    (fun _ => (.error ("boom") : Except String Nat)) 3 2 (fun _ => ("boom")) 7 3).2.1
    (by norm_num)
  rw [hrange] at h1 h2
  refine ⟨?_, ?_, h3, h4⟩
  · rw [h1]
    norm_num
  · rw [h2]
    norm_num

/-- C6: credential noninterference: two runs of the fetcher that differ only
in the supplied API key issue the identical HTTP request (same URL, same
headers), carry no query parameters at all, and produce the same retry
trace; the key is never transmitted. -/
theorem fetch_credential_independent (k1 k2 : String)
    (net : Nat → Except String JVal) (m : Nat) (b : ℚ) :
    (fetch_applist_run k1 net m b).request = (fetch_applist_run k2 net m b).request ∧
    (fetch_applist_run k1 net m b).request.params = [] ∧
    (fetch_applist_run k1 net m b).trace = (fetch_applist_run k2 net m b).trace :=
  ⟨rfl, rfl, rfl⟩

/-- C9: writing the empty sequence of pairs still produces the file, whose
content is exactly the header row followed by the line terminator. -/
theorem write_csv_empty : write_csv [] = "AppId,Name\r\n" := rfl

/-- C4: at the failing input (every GET attempt times out, standard input
unavailable) the unguarded `input()` on line 90 raises `EOFError`, which
propagates out of `main`: the process crashes with a traceback instead of
exiting with code 2 as the claim requires. -/
theorem main_eof_crash_on_fetch_failure :
    (main ⟨DEFAULT_API_KEY, fun _ => .error ("Connection timed out"), false, true,
      true, false⟩).2 = .crashed promptCrashMsg ∧
    (main ⟨DEFAULT_API_KEY, fun _ => .ok (mkResponse []), false, true, false,
      false⟩).2 = .crashed promptCrashMsg := ⟨rfl, rfl⟩

theorem readQuoted_escape (s : List Char) (rest : List Char)
    (h : ∀ c, rest.head? = some c → c ≠ '"') :
    readQuoted (escapeQuotes s ++ '"' :: rest) = some (s, rest) := by
  induction s with
  | nil =>
    cases rest with
    | nil => rfl
    | cons c r =>
      have hc : c ≠ '"' := h c rfl
      simp [escapeQuotes, readQuoted, hc]
  | cons c s ih =>
    by_cases hc : c = '"'
    · subst hc
      simp [escapeQuotes, readQuoted, ih]
    · simp only [escapeQuotes, if_neg hc, List.cons_append]
      rw [readQuoted.eq_def]
      simp only [if_neg hc]
      rw [ih]
      rfl

theorem readUnquoted_cons (c : Char) (cs : List Char) :
    readUnquoted (c :: cs) =
      if c = ',' ∨ c = '\r' ∨ c = '\n' then ([], c :: cs)
      else (c :: (readUnquoted cs).1, (readUnquoted cs).2) := rfl

theorem readUnquoted_clean (s : List Char) (rest : List Char)
    (hs : ∀ c ∈ s, csvSpecial c = false)
    (hrest : rest = [] ∨ ∃ c r, rest = c :: r ∧ (c = ',' ∨ c = '\r' ∨ c = '\n')) :
    readUnquoted (s ++ rest) = (s, rest) := by
  induction s with
  | nil =>
    rcases hrest with rfl | ⟨c, r, rfl, hc⟩
    · rfl
    · simp only [List.nil_append]
      rw [readUnquoted_cons, if_pos hc]
  | cons c s ih =>
    have hcs := hs c (by simp)
    have hnc : ¬(c = ',' ∨ c = '\r' ∨ c = '\n') := by
      intro hor
      rcases hor with rfl | rfl | rfl <;> simp [csvSpecial] at hcs
    have ih2 := ih (fun x hx => hs x (by simp [hx]))
    simp only [List.cons_append]
    rw [readUnquoted_cons, if_neg hnc, ih2]

theorem readField_encode (f : List Char) (c : Char) (r : List Char)
    (hc : c = ',' ∨ c = '\r') :
    readField (encodeField f ++ c :: r) = some (f, c :: r) := by
  have hcq : c ≠ '"' := by rcases hc with rfl | rfl <;> decide
  have hcsep : c = ',' ∨ c = '\r' ∨ c = '\n' := by tauto
  by_cases hq : f.any csvSpecial
  · have henc : encodeField f = '"' :: (escapeQuotes f ++ ['"']) := by
      simp [encodeField, hq]
    rw [henc]
    have hrq : readQuoted (escapeQuotes f ++ '"' :: (c :: r)) = some (f, c :: r) :=
      readQuoted_escape f (c :: r) (fun x hx => by simp at hx; subst hx; exact hcq)
    simp [readField, hrq]
  · have henc : encodeField f = f := by
      simp [encodeField, hq]
    rw [henc]
    have hs : ∀ x ∈ f, csvSpecial x = false := by
      rw [List.any_eq_true] at hq
      push_neg at hq
      intro x hx
      exact Bool.eq_false_iff.mpr (hq x hx)
    have hclean := readUnquoted_clean f (c :: r) hs (Or.inr ⟨c, r, rfl, hcsep⟩)
    cases f with
    | nil =>
      simp only [List.nil_append, readField, if_neg hcq]
      rw [readUnquoted_cons, if_pos hcsep]
    | cons a f2 =>
      have has : csvSpecial a = false := hs a (by simp)
      have haq : a ≠ '"' := by
        intro hceq
        subst hceq
        simp [csvSpecial] at has
      simp only [List.cons_append, readField, if_neg haq]
      rw [show a :: (f2 ++ (c :: r)) = (a :: f2) ++ (c :: r) from rfl, hclean]

theorem readRecord_comma {fuel : Nat} {cs f rest : List Char}
    (hf : readField cs = some (f, ',' :: rest)) :
    readRecord (fuel + 1) cs =
      (match readRecord fuel rest with
       | none => none
       | some (fs, r2) => some (f :: fs, r2)) := by
  simp only [readRecord, hf]
  rfl

theorem readRecord_crlf {fuel : Nat} {cs f rest : List Char}
    (hf : readField cs = some (f, '\r' :: '\n' :: rest)) :
    readRecord (fuel + 1) cs = some ([f], rest) := by
  simp only [readRecord, hf]
  rfl

theorem readRecord_encode (fields : List (List Char)) :
    ∀ (fuel : Nat) (rest : List Char), fields ≠ [] → fields.length ≤ fuel →
    readRecord fuel (encodeRow fields ++ rest) = some (fields, rest) := by
  induction fields with
  | nil => intro fuel rest h; exact absurd rfl h
  | cons f fs ih =>
    intro fuel rest _ hlen
    obtain ⟨fu, rfl⟩ : ∃ fu, fuel = fu + 1 := ⟨fuel - 1, by simp at hlen; omega⟩
    cases fs with
    | nil =>
      have hrow : encodeRow [f] ++ rest = encodeField f ++ ('\r' :: '\n' :: rest) := by
        simp [encodeRow, encodeFields]
      rw [hrow, readRecord_crlf (readField_encode f '\r' ('\n' :: rest) (Or.inr rfl))]
    | cons g fs2 =>
      have hrow : encodeRow (f :: g :: fs2) ++ rest =
          encodeField f ++ (',' :: (encodeRow (g :: fs2) ++ rest)) := by
        simp [encodeRow, encodeFields]
      rw [hrow,
        readRecord_comma (readField_encode f ',' (encodeRow (g :: fs2) ++ rest) (Or.inl rfl)),
        ih fu rest (by simp) (by simp at hlen ⊢; omega)]

/-- Text of a whole sequence of CSV records. -/
def rowsText : List (List (List Char)) → List Char
  | [] => []
  | row :: rows => encodeRow row ++ rowsText rows

theorem fields_len_le (fields : List (List Char)) :
    fields.length ≤ (encodeFields fields).length + 1 := by
  induction fields with
  | nil => simp [encodeFields]
  | cons f fs ih =>
    cases fs with
    | nil => simp [encodeFields]
    | cons g fs2 =>
      simp only [encodeFields, List.length_append, List.length_cons] at *
      omega

theorem rows_len_le (rows : List (List (List Char))) :
    rows.length ≤ (rowsText rows).length := by
  induction rows with
  | nil => simp [rowsText]
  | cons r rs ih =>
    simp only [rowsText, encodeRow, List.length_append, List.length_cons] at *
    omega

theorem readRows_step {fuel : Nat} {cs : List Char} (hcs : cs ≠ [])
    {row : List (List Char)} {rest : List Char}
    (hrec : readRecord (cs.length + 1) cs = some (row, rest)) :
    readRows (fuel + 1) cs =
      (match readRows fuel rest with
       | none => none
       | some rows => some (row :: rows)) := by
  simp only [readRows, if_neg hcs, hrec]

theorem readRows_rowsText (rows : List (List (List Char))) :
    ∀ (fuel : Nat), (∀ r ∈ rows, r ≠ []) → rows.length ≤ fuel →
    readRows fuel (rowsText rows) = some rows := by
  induction rows with
  | nil => intro fuel _ _; cases fuel <;> simp [readRows, rowsText]
  | cons row rows ih =>
    intro fuel hne hlen
    obtain ⟨fu, rfl⟩ : ∃ fu, fuel = fu + 1 := ⟨fuel - 1, by simp at hlen; omega⟩
    have hnil : encodeRow row ++ rowsText rows ≠ [] := by
      simp [encodeRow]
    have hfuel : row.length ≤ (encodeRow row ++ rowsText rows).length + 1 := by
      have h1 := fields_len_le row
      have h2 : (encodeRow row).length = (encodeFields row).length + 2 := by
        simp [encodeRow]
      simp only [List.length_append]
      omega
    have hrec := readRecord_encode row ((encodeRow row ++ rowsText rows).length + 1)
      (rowsText rows) (hne row (by simp)) hfuel
    show readRows (fu + 1) (encodeRow row ++ rowsText rows) = some (row :: rows)
    rw [readRows_step hnil hrec, ih fu (fun r hr => hne r (by simp [hr])) (by simp at hlen; omega)]

/-- C7: round-trip: for every finite sequence of pairs, writing them with
`write_csv` and re-reading the resulting text with the standard CSV reader
yields the header row `AppId,Name` followed by exactly one data row per pair,
in order, each row being the identifier rendered by `str()` and the name
string recovered verbatim. -/
theorem write_csv_round_trip (apps : List (Int × String)) :
    csvRead (write_csv apps) =
      some ([("AppId"), ("Name")] ::
        apps.map (fun p => [intRepr p.1, p.2])) := by
  have hbody : encodeRow [("AppId").toList, ("Name").toList] ++ csvBody apps =
      rowsText ([("AppId").toList, ("Name").toList] ::
        apps.map (fun p => [intReprChars p.1, p.2.toList])) := by
    simp only [rowsText]
    congr 1
    induction apps with
    | nil => rfl
    | cons p ps ih => simp [csvBody, rowsText, ih]
  have hToList : ∀ cs : List Char,
      (String.mk cs).toList = cs := fun _ => rfl
  show (readRows (((String.mk (encodeRow [("AppId").toList, ("Name").toList] ++
      csvBody apps)).toList).length + 1)
      ((String.mk (encodeRow [("AppId").toList, ("Name").toList] ++
      csvBody apps)).toList)).map
      (fun rows => rows.map (fun rw => rw.map String.mk)) = _
  rw [hToList, hbody]
  rw [readRows_rowsText _ _ ?ne ?len]
  case ne =>
    intro rw hrw
    rcases List.mem_cons.1 hrw with rfl | hrw
    · simp
    · obtain ⟨p, _, rfl⟩ := List.mem_map.1 hrw
      simp
  case len =>
    have := rows_len_le ([("AppId").toList, ("Name").toList] ::
      apps.map (fun p => [intReprChars p.1, p.2.toList]))
    omega
  simp only [Option.map_some', List.map_cons, List.map_map]
  rfl

/-- The same environment with the optional JSON dump made to succeed. -/
def envJsonOk (env : Env) : Env :=
  ⟨env.apiKey, env.net, env.jsonFlag, true, env.csvWriteOk, env.stdinOk⟩

/-- C8: the exit code is 0 when the run succeeds, 2 when the fetch fails
after exhausting retries (given the acknowledgment prompt can read), 3 when
the CSV write fails (same proviso); and a failure writing the optional JSON
dump never changes the outcome of the run (same exit code, processing
continues) while being logged to the diagnostic stream. -/
theorem main_exit_codes (env : Env) (data : JVal) (e : String)
    (apps : List (Int × String)) :
    ((fetch_applist env.net 3 2).outcome = .success data →
      extract_apps data = .ok apps → env.csvWriteOk = true →
      (main env).2 = .exit 0)
    ∧ ((fetch_applist env.net 3 2).outcome = .failure e → env.stdinOk = true →
      (main env).2 = .exit 2)
    ∧ ((fetch_applist env.net 3 2).outcome = .success data →
      extract_apps data = .ok apps → env.csvWriteOk = false → env.stdinOk = true →
      (main env).2 = .exit 3)
    ∧ ((main env).2 = (main (envJsonOk env)).2)
    ∧ (env.jsonFlag = true → env.jsonWriteOk = false →
      (fetch_applist env.net 3 2).outcome = .success data →
      jsonFailMsg ∈ (main env).1) := by
  refine ⟨?_, ?_, ?_, ?_, ?_⟩
  · intro hf hx hcsv
    simp [main, mainAfterFetch, fetch_applist_run, hf, hx, hcsv]
  · intro hf hstdin
    simp [main, fetch_applist_run, hf, hstdin]
  · intro hf hx hcsv hstdin
    simp [main, mainAfterFetch, fetch_applist_run, hf, hx, hcsv, hstdin]
  · simp only [main, mainAfterFetch, fetch_applist_run, envJsonOk]
    cases hout : (fetch_applist env.net 3 2).outcome with
    | failure e2 => simp
    | success d =>
      cases hx : extract_apps d with
      | error msg => simp [hx]
      | ok apps2 => cases hcsv : env.csvWriteOk <;> simp [hx, hcsv]
    | noAttempts =>
      cases hx : extract_apps JVal.null with
      | error msg => simp [hx]
      | ok apps2 => cases hcsv : env.csvWriteOk <;> simp [hx, hcsv]
  · intro hflag hjson hf
    cases hx : extract_apps data with
    | error msg => simp [main, mainAfterFetch, fetch_applist_run, hf, hx, hflag, hjson]
    | ok apps2 =>
      cases hcsv : env.csvWriteOk <;>
        simp [main, mainAfterFetch, fetch_applist_run, hf, hx, hflag, hjson, hcsv]

/-- Witness for C8: a run that succeeds on the first attempt with one valid
entry and a failing JSON dump exits 0 with the dump failure logged; a run
whose every fetch attempt fails exits 2; a run whose CSV write fails exits 3. -/
theorem main_exit_codes_witness :
    (main ⟨DEFAULT_API_KEY, fun _ => .ok (mkResponse [.obj [(("appid"), .int 10)]]),
      true, false, true, true⟩).2 = .exit 0
    ∧ (main ⟨DEFAULT_API_KEY, fun _ => .error ("timeout"), false, true, true, true⟩).2 =
      .exit 2
    ∧ (main ⟨DEFAULT_API_KEY, fun _ => .ok (mkResponse [.obj [(("appid"), .int 10)]]),
      false, true, false, true⟩).2 = .exit 3
    ∧ jsonFailMsg ∈ (main ⟨DEFAULT_API_KEY,
      fun _ => .ok (mkResponse [.obj [(("appid"), .int 10)]]),
      true, false, true, true⟩).1 := by
  refine ⟨?_, ?_, ?_, ?_⟩
  · exact (main_exit_codes ⟨DEFAULT_API_KEY,
      fun _ => .ok (mkResponse [.obj [(("appid"), .int 10)]]), true, false, true, true⟩
      (mkResponse [.obj [(("appid"), .int 10)]]) ("") [(10, "")]).1 rfl rfl rfl
  · exact (main_exit_codes ⟨DEFAULT_API_KEY, fun _ => .error ("timeout"), false, true,
      true, true⟩ .null ("timeout") []).2.1 rfl rfl
  · exact (main_exit_codes ⟨DEFAULT_API_KEY,
      fun _ => .ok (mkResponse [.obj [(("appid"), .int 10)]]), false, true, false, true⟩
      (mkResponse [.obj [(("appid"), .int 10)]]) ("") [(10, "")]).2.2.1 rfl rfl rfl rfl
  · exact (main_exit_codes ⟨DEFAULT_API_KEY,
      fun _ => .ok (mkResponse [.obj [(("appid"), .int 10)]]), true, false, true, true⟩
      (mkResponse [.obj [(("appid"), .int 10)]]) ("") [(10, "")]).2.2.2.2 rfl rfl rfl
